import Mathlib

/-!
# Verification of the by-hand cross-validation routine (INFO204)

A shallow embedding of the "by-hand" k-fold cross-validation and
hyperparameter search code of `lect10-examples/cross-validation.ipynb`
(code cells `f6eda8ee` and `f306f94d`), together with proofs and
refutations of the specified properties.

Conventions of the embedding:
* a dataset is a list of rows, each row a pair (feature vector, target);
* numeric scores are rationals (the notebook's floating point arithmetic
  is treated as exact arithmetic);
* the external learning library (scikit-learn) is represented by its
  interface only: a `Predictor` is a pair of functions `fit`/`score`, a
  scaler is a pair `fit`/`transform`, exactly the capability contract
  the notebook code relies on;
* `numpy` helpers (`np.mean`, `np.argmax`, `rng.shuffle`) are modelled by
  `npMean`, `firstArgmax` (index of the first occurrence of the maximum)
  and an arbitrary permutation of the list, respectively.
-/

namespace CV

/-! ## Fold Assigner (cells `f6eda8ee` and `f306f94d`)

Source line: `fold = np.array([ i % n_folds for i in range(len(X)) ])`. -/

/-- `fold = [ i % n_folds for i in range(N) ]` — the fold label of
instance `i` is `i % K`. -/
def foldAssign (N K : ℕ) : List ℕ :=
  (List.range N).map (fun i => i % K)

/-- The only failure the Python fold-construction line can raise:
`i % 0` raises `ZeroDivisionError` (it is reached only when the range is
non-empty). There is no validation of the K/N relationship in the code. -/
inductive FoldError : Type
  | zeroDivisionError
deriving DecidableEq

/-- Running the fold-construction line as Python executes it: it raises
`ZeroDivisionError` when `K = 0` and at least one instance exists, and
otherwise succeeds with the `i % K` labels, whatever the relation of `K`
to `N`. -/
def foldAssignRun (N K : ℕ) : Except FoldError (List ℕ) :=
  if K = 0 ∧ 0 < N then .error .zeroDivisionError
  else .ok (foldAssign N K)

theorem foldAssign_length (N K : ℕ) : (foldAssign N K).length = N := by
  simp [foldAssign]

theorem foldAssign_succ (N K : ℕ) :
    foldAssign (N + 1) K = foldAssign N K ++ [N % K] := by
  simp [foldAssign, List.range_succ]

/-- C3: before any shuffle, the Fold Assigner labels instance `i` with
`i mod K`; in particular `N = 10, K = 5` gives `[0,1,2,3,4,0,1,2,3,4]`
and `N = 10, K = 10` gives `[0,1,2,3,4,5,6,7,8,9]`. -/
theorem foldAssign_mod_spec :
    (∀ N K i : ℕ, 0 < K → i < N → (foldAssign N K)[i]? = some (i % K)) ∧
    foldAssign 10 5 = [0, 1, 2, 3, 4, 0, 1, 2, 3, 4] ∧
    foldAssign 10 10 = [0, 1, 2, 3, 4, 5, 6, 7, 8, 9] := by
  refine ⟨fun N K i _hK hi => ?_, by decide, by decide⟩
  simp [foldAssign, List.getElem?_range, hi]

/-- Witness for C3 at `N = 10`, `K = 5`, `i = 3`. -/
theorem foldAssign_mod_spec_app : (foldAssign 10 5)[3]? = some (3 % 5) :=
  foldAssign_mod_spec.1 10 5 3 (by decide) (by decide)

/-- Counterexample to C7: the code performs no K/N validation. With
`K = 5 > N = 3` the fold construction succeeds (no `ConfigurationError`),
and likewise with `K = 1 < 2`. -/
theorem foldAssign_no_validation_refuted :
    foldAssignRun 3 5 = .ok [0, 1, 2] ∧
    foldAssignRun 4 1 = .ok [0, 0, 0, 0] := by
  constructor <;> rfl

/-- C7 (amended): the Fold Assigner performs no K/N validation. It fails
only with `ZeroDivisionError` when `K = 0` and `N > 0`; for every `K ≥ 1`
(including `K = 1 < 2` and `K > N`) it succeeds and produces exactly `N`
fold labels. In particular it succeeds whenever `2 ≤ K ≤ N`. -/
theorem foldAssignRun_behavior (N K : ℕ) :
    (K = 0 → 0 < N → foldAssignRun N K = .error .zeroDivisionError) ∧
    (0 < K →
      foldAssignRun N K = .ok (foldAssign N K) ∧ (foldAssign N K).length = N) := by
  constructor
  · intro hK hN
    simp [foldAssignRun, hK, hN]
  · intro hK
    refine ⟨?_, foldAssign_length N K⟩
    simp [foldAssignRun, Nat.pos_iff_ne_zero.mp hK]

/-- Witness for C7 (amended) at `N = 4`, `K = 2`. -/
theorem foldAssignRun_behavior_app :
    foldAssignRun 4 2 = .ok (foldAssign 4 2) ∧ (foldAssign 4 2).length = 4 :=
  (foldAssignRun_behavior 4 2).2 (by decide)

/-! ### Fold size arithmetic for C2 -/

/-- Successor step of Euclidean division: moving from `n` to `n + 1`
either wraps the residue (when `n % K = K - 1`) or increments it. -/
theorem succ_div_mod (n K : ℕ) (hK : 0 < K) :
    (n % K = K - 1 → (n + 1) / K = n / K + 1 ∧ (n + 1) % K = 0) ∧
    (n % K ≠ K - 1 → (n + 1) / K = n / K ∧ (n + 1) % K = n % K + 1) := by
  have hmod : n % K < K := Nat.mod_lt n hK
  have hdm : K * (n / K) + n % K = n := Nat.div_add_mod n K
  constructor
  · intro h
    have hexp : K * (n / K + 1) = K * (n / K) + K := by ring
    have hn1 : n + 1 = K * (n / K + 1) := by omega
    constructor
    · rw [hn1, Nat.mul_div_cancel_left _ hK]
    · rw [hn1, Nat.mul_mod_right]
  · intro h
    have hlt : n % K + 1 < K := by omega
    have hn1 : n + 1 = K * (n / K) + (n % K + 1) := by omega
    constructor
    · rw [hn1, Nat.mul_add_div hK, Nat.div_eq_of_lt hlt]
      omega
    · rw [hn1, Nat.mul_add_mod, Nat.mod_eq_of_lt hlt]

/-- Exact size of fold `v` in the unshuffled assignment: each fold holds
`N / K` instances, plus one more for the first `N % K` folds. -/
theorem count_foldAssign (N K v : ℕ) (hK : 0 < K) (hv : v < K) :
    (foldAssign N K).count v = N / K + (if v < N % K then 1 else 0) := by
  induction N with
  | zero => simp [foldAssign]
  | succ n ih =>
    rw [foldAssign_succ, List.count_append]
    have hmod : n % K < K := Nat.mod_lt n hK
    have hsingle : List.count v [n % K] = if n % K = v then 1 else 0 := by
      simp [List.count_singleton']
    rw [hsingle, ih]
    by_cases hwrap : n % K = K - 1
    · obtain ⟨hd, hm⟩ := (succ_div_mod n K hK).1 hwrap
      rw [hd, hm]
      split_ifs <;> omega
    · obtain ⟨hd, hm⟩ := (succ_div_mod n K hK).2 hwrap
      rw [hd, hm]
      split_ifs <;> omega

/-- C2: for `2 ≤ K ≤ N` the Fold Assigner produces exactly `N` labels in
which every fold id in `[0, K-1]` occurs at least once, and any two fold
sizes differ by at most 1; this holds for the unshuffled assignment and
for any permutation of it (the shuffle only permutes the sequence), since
a permutation preserves length and all counts. -/
theorem foldAssign_cover_balanced (N K : ℕ) (hK : 2 ≤ K) (hKN : K ≤ N)
    (l : List ℕ) (hperm : l.Perm (foldAssign N K)) :
    l.length = N ∧ (∀ v, v < K → 0 < l.count v) ∧
    (∀ u v, u < K → v < K → l.count u ≤ l.count v + 1) := by
  have hK0 : 0 < K := by omega
  have hdiv : 1 ≤ N / K := (Nat.one_le_div_iff hK0).mpr hKN
  refine ⟨?_, ?_, ?_⟩
  · rw [hperm.length_eq, foldAssign_length]
  · intro v hv
    rw [hperm.count_eq, count_foldAssign N K v hK0 hv]
    split_ifs <;> omega
  · intro u v hu hv
    rw [hperm.count_eq, hperm.count_eq,
      count_foldAssign N K u hK0 hu, count_foldAssign N K v hK0 hv]
    split_ifs <;> omega

/-- Witness for C2 at `N = 5`, `K = 2`, with the identity shuffle. -/
theorem foldAssign_cover_balanced_app :
    (foldAssign 5 2).length = 5 ∧ 0 < (foldAssign 5 2).count 1 :=
  ⟨(foldAssign_cover_balanced 5 2 (by decide) (by decide) _ (List.Perm.refl _)).1,
   (foldAssign_cover_balanced 5 2 (by decide) (by decide) _ (List.Perm.refl _)).2.1
     1 (by decide)⟩

/-! ## Cross-Validation Evaluator (cell `f6eda8ee`)

The cell iterates `for i in range(n_folds)`, splits via
`X[np.where(fold != i)]` / `X[np.where(fold == i)]` (and similarly for
`y`), fits a freshly constructed predictor on the training split, scores
it on the test split, appends the score to `perf`, and finally reports
`np.mean(perf)`. -/

/-- The two-operation capability contract of the external learning
library: `fit` trains on features/targets, `score` evaluates a fitted
model on features/targets. -/
structure Predictor (χ ϒ M : Type) where
  fit : List χ → List ϒ → M
  score : M → List χ → List ϒ → ℚ

/-- Rows whose fold label differs from `f`, in dataset order — the
model of `X[np.where(fold != i)]` paired with `y[np.where(fold != i)]`
(rows carry features and target together; the Python code selects both
arrays with the same mask). -/
def trainRows {α : Type} (rows : List α) (fold : List ℕ) (f : ℕ) : List α :=
  ((rows.zip fold).filter (fun p => p.2 ≠ f)).map Prod.fst

/-- Rows whose fold label equals `f`, in dataset order — the model of
`X[np.where(fold == i)]` / `y[np.where(fold == i)]`. -/
def testRows {α : Type} (rows : List α) (fold : List ℕ) (f : ℕ) : List α :=
  ((rows.zip fold).filter (fun p => p.2 = f)).map Prod.fst

/-- `np.mean` on a list of rationals (mean of the empty list is 0). -/
def npMean (l : List ℚ) : ℚ := l.sum / l.length

/-- The squared `np.std` (population variance, `ddof = 0`); the standard
deviation itself is its square root, so two lists have equal standard
deviation iff they have equal `npVariance`. -/
def npVariance (l : List ℚ) : ℚ :=
  npMean (l.map (fun x => (x - npMean l) ^ 2))

/-- The body of one iteration of the cross-validation loop: construct a
fresh predictor (`LinearRegression()` — the factory is invoked anew for
this fold), fit it on the training split of fold `f`, score it on the
test split of fold `f`. -/
def cvFoldScore {χ ϒ M : Type} (factory : Unit → Predictor χ ϒ M)
    (rows : List (χ × ϒ)) (fold : List ℕ) (f : ℕ) : ℚ :=
  let p := factory ()
  let tr := trainRows rows fold f
  let te := testRows rows fold f
  p.score (p.fit (tr.map Prod.fst) (tr.map Prod.snd))
    (te.map Prod.fst) (te.map Prod.snd)

/-- The cross-validation loop: `perf = []`, then
`for i in range(n_folds): perf.append(...)`. -/
def cvEvaluate {χ ϒ M : Type} (factory : Unit → Predictor χ ϒ M)
    (rows : List (χ × ϒ)) (fold : List ℕ) (K : ℕ) : List ℚ :=
  (List.range K).foldl (fun perf f => perf ++ [cvFoldScore factory rows fold f]) []

/-- The value the cell finally reports:
`np.mean(perf)` (printed via `np.round(·, 3)`; the rounding is display
formatting and is not modelled). No other statistic is computed. -/
def cvRun {χ ϒ M : Type} (factory : Unit → Predictor χ ϒ M)
    (rows : List (χ × ϒ)) (fold : List ℕ) (K : ℕ) : ℚ :=
  npMean (cvEvaluate factory rows fold K)

theorem foldl_append_singleton {α β : Type} (g : α → β) :
    ∀ (l : List α) (acc : List β),
      l.foldl (fun a x => a ++ [g x]) acc = acc ++ l.map g := by
  intro l
  induction l with
  | nil => intro acc; simp
  | cons x xs ih => intro acc; simp [List.foldl_cons, ih]

theorem cvEvaluate_eq_map {χ ϒ M : Type} (factory : Unit → Predictor χ ϒ M)
    (rows : List (χ × ϒ)) (fold : List ℕ) (K : ℕ) :
    cvEvaluate factory rows fold K =
      (List.range K).map (cvFoldScore factory rows fold) := by
  rw [cvEvaluate, foldl_append_singleton]
  simp

theorem cvEvaluate_length {χ ϒ M : Type} (factory : Unit → Predictor χ ϒ M)
    (rows : List (χ × ϒ)) (fold : List ℕ) (K : ℕ) :
    (cvEvaluate factory rows fold K).length = K := by
  rw [cvEvaluate_eq_map]; simp

/-- C1: the evaluator produces exactly one score record per fold (`K`
records in all), and the record of fold `f < K` is obtained by invoking
the factory afresh (no state from any other fold can reach it: the
record is a function of the factory's untrained output and of fold `f`'s
partitions alone), fitting on exactly the rows whose fold label is `≠ f`
(`trainRows`), and scoring the fitted model on exactly the rows whose
fold label is `= f` (`testRows`). -/
theorem cvEvaluator_per_fold {χ ϒ M : Type} (factory : Unit → Predictor χ ϒ M)
    (rows : List (χ × ϒ)) (fold : List ℕ) (K f : ℕ) (hf : f < K) :
    (cvEvaluate factory rows fold K).length = K ∧
    (cvEvaluate factory rows fold K)[f]? = some
      ((factory ()).score
        ((factory ()).fit ((trainRows rows fold f).map Prod.fst)
          ((trainRows rows fold f).map Prod.snd))
        ((testRows rows fold f).map Prod.fst)
        ((testRows rows fold f).map Prod.snd)) := by
  refine ⟨cvEvaluate_length factory rows fold K, ?_⟩
  rw [cvEvaluate_eq_map]
  simp [List.getElem?_range, hf, cvFoldScore]

/-! ### Concrete instances used to evaluate the embedding -/

/-- A concrete predictor: `fit` remembers the mean of the training
features, `score` returns the number of test rows (enough to observe
which rows reach `fit` and `score`). -/
def wPred : Predictor ℚ ℚ ℚ where
  fit := fun X _y => npMean X
  score := fun _m X _y => (X.length : ℚ)

/-- A concrete factory producing `wPred` afresh on each call. -/
def wFactory : Unit → Predictor ℚ ℚ ℚ := fun _ => wPred

/-- A concrete two-row dataset. -/
def wRows : List (ℚ × ℚ) := [(10, 1), (20, 2)]

/-- Witness for C1 at fold `f = 1` of `K = 2` on `wRows` with the fold
assignment `[0, 1]`. -/
theorem cvEvaluator_per_fold_app :
    (cvEvaluate wFactory wRows [0, 1] 2).length = 2 ∧
    (cvEvaluate wFactory wRows [0, 1] 2)[1]? = some
      ((wFactory ()).score
        ((wFactory ()).fit ((trainRows wRows [0, 1] 1).map Prod.fst)
          ((trainRows wRows [0, 1] 1).map Prod.snd))
        ((testRows wRows [0, 1] 1).map Prod.fst)
        ((testRows wRows [0, 1] 1).map Prod.snd)) :=
  cvEvaluator_per_fold wFactory wRows [0, 1] 2 1 (by decide)

/-- Counterexample to C6: two runs of the evaluator whose per-fold
scores have different standard deviations (variance 1 versus variance 0)
produce identical reported estimates, so the report — a single number,
`np.mean(perf)` — cannot contain the standard deviation. -/
theorem cvReport_no_std_refuted :
    cvEvaluate wFactory wRows [0, 0] 2 = [2, 0] ∧
    cvEvaluate wFactory wRows [0, 1] 2 = [1, 1] ∧
    cvRun wFactory wRows [0, 0] 2 = cvRun wFactory wRows [0, 1] 2 ∧
    npVariance (cvEvaluate wFactory wRows [0, 0] 2) ≠
      npVariance (cvEvaluate wFactory wRows [0, 1] 2) := by
  have h1 : cvEvaluate wFactory wRows [0, 0] 2 = [2, 0] := by decide
  have h2 : cvEvaluate wFactory wRows [0, 1] 2 = [1, 1] := by decide
  refine ⟨h1, h2, ?_, ?_⟩
  · rw [cvRun, cvRun, h1, h2]
    norm_num [npMean]
  · rw [h1, h2]
    norm_num [npVariance, npMean]

/-- C6 (amended): the evaluator reports a single number, the arithmetic
mean of the `K` per-fold scores of its one run (`R = 1`; the by-hand
cell has no repeats); the standard deviation is not part of the report. -/
theorem cvRun_mean_only {χ ϒ M : Type} (factory : Unit → Predictor χ ϒ M)
    (rows : List (χ × ϒ)) (fold : List ℕ) (K : ℕ) :
    cvRun factory rows fold K = (cvEvaluate factory rows fold K).sum / K := by
  rw [cvRun, npMean, cvEvaluate_length]

/-- Counterexample to C8: with two rows, fold labels `[0, 1]` and
`K = 3`, fold 2's test partition is empty, yet the evaluator does not
fail: it still produces three score records, the third obtained by
scoring on the empty partition (here the score, the size of the test
split, is 0). -/
theorem cv_empty_partition_scored :
    testRows wRows [0, 1] 2 = [] ∧
    (cvEvaluate wFactory wRows [0, 1] 3).length = 3 ∧
    (cvEvaluate wFactory wRows [0, 1] 3)[2]? = some 0 := by
  refine ⟨by decide, by decide, by decide⟩

theorem zip_range'_filter_length {α : Type} :
    ∀ (l : List α) (s f : ℕ),
      ((l.zip (List.range' s l.length)).filter (fun p => p.2 = f)).length =
        if s ≤ f ∧ f < s + l.length then 1 else 0 := by
  intro l
  induction l with
  | nil =>
    intro s f
    simp only [List.length_nil, List.range'_zero, List.zip_nil_left,
      List.filter_nil, List.length_nil]
    rw [if_neg (by omega)]
  | cons a as ih =>
    intro s f
    rw [List.length_cons, List.range'_succ, List.zip_cons_cons, List.filter_cons]
    by_cases hsf : s = f
    · rw [if_pos (by simp [hsf])]
      rw [List.length_cons, ih (s + 1) f]
      split_ifs <;> omega
    · rw [if_neg (by simp [hsf])]
      rw [ih (s + 1) f]
      split_ifs <;> omega

theorem foldAssign_self (N : ℕ) : foldAssign N N = List.range N := by
  rw [foldAssign]
  rw [List.map_eq_iff]
  intro i
  rcases Nat.lt_or_ge i N with h | h
  · simp [List.getElem?_range, h, Nat.mod_eq_of_lt h]
  · simp [List.getElem?_eq_none, h]

/-- C8 (amended): the evaluator has no empty-partition guard: it
produces a score record for every fold id in `0..K-1` whether or not
that fold's test partition is empty (no `EmptyPartitionError` exists in
the code). In the leave-one-out configuration (`K = N` with the
unshuffled assignment on `N` rows), every test partition has exactly one
instance. -/
theorem cv_no_guard_loo {χ ϒ M : Type} (factory : Unit → Predictor χ ϒ M)
    (rows : List (χ × ϒ)) (fold : List ℕ) (K N f : ℕ) :
    (cvEvaluate factory rows fold K).length = K ∧
    (rows.length = N → f < N →
      (testRows rows (foldAssign N N) f).length = 1) := by
  refine ⟨cvEvaluate_length factory rows fold K, fun hN hf => ?_⟩
  subst hN
  rw [testRows, foldAssign_self, List.length_map, List.range_eq_range',
    zip_range'_filter_length]
  simp [hf]

/-- Witness for C8 (amended) on `wRows` (leave-one-out with `N = 2`). -/
theorem cv_no_guard_loo_app :
    (cvEvaluate wFactory wRows [0, 1] 3).length = 3 ∧
    (testRows wRows (foldAssign 2 2) 1).length = 1 :=
  ⟨(cv_no_guard_loo wFactory wRows [0, 1] 3 2 1).1,
   (cv_no_guard_loo wFactory wRows [0, 1] 3 2 1).2 rfl (by decide)⟩

/-! ## Hyperparameter search (cell `f306f94d`)

The cell constructs the fold assignment once, constructs a single
`StandardScaler()` object, and then, for each candidate neighbourhood
size and each fold, splits the data, runs
`Z_train, Z_test = scaler.fit_transform(X_train), scaler.transform(X_test)`
(evaluated left to right, so the scaler is refitted on the training
split before the test split is transformed), fits a fresh
`KNeighborsRegressor(n_neighbors=k)` on `Z_train`, scores it on
`Z_test`, and records `np.mean(perf)` per candidate; finally
`np.argmax` picks the best candidate. The scaler is one mutable object
shared by every candidate and every fold, so its state is threaded
through the whole double loop. -/

/-- The capability contract of the external scaler
(`StandardScaler`): `fit` derives parameters from a list of feature
vectors, `transform` applies derived parameters to one feature vector. -/
structure ScalerOps (χ χ' S : Type) where
  fit : List χ → S
  transform : S → χ → χ'

/-- `scaler.fit_transform(X)`: refit the scaler's state from `X` from
scratch (the previous state `_s` is discarded, as scikit-learn does) and
return the new state together with `X` transformed by it. -/
def fitTransform {χ χ' S : Type} (sc : ScalerOps χ χ' S) (_s : Option S)
    (X : List χ) : Option S × List χ' :=
  (some (sc.fit X), X.map (sc.transform (sc.fit X)))

/-- `scaler.transform(X)`: apply the scaler's current state; a scaler
that was never fitted has no parameters (scikit-learn raises
`NotFittedError`, modelled as `none`). -/
def transformOp {χ χ' S : Type} (sc : ScalerOps χ χ' S) :
    Option S → List χ → Option (List χ')
  | none, _ => none
  | some prm, X => some (X.map (sc.transform prm))

/-- One iteration of the inner fold loop of cell `f306f94d`: split the
data for fold `f`, refit the shared scaler on the training split,
transform both splits, fit a fresh predictor on the transformed training
split, score it on the transformed test split. Returns the scaler state
left behind for the next iteration together with the score. (The `none`
branch of the unfitted-scaler error is unreachable because
`fit_transform` has just fitted the scaler.) -/
def foldScoreStep {χ χ' ϒ S M : Type} (sc : ScalerOps χ χ' S)
    (p : Predictor χ' ϒ M) (rows : List (χ × ϒ)) (fold : List ℕ) (f : ℕ)
    (s : Option S) : Option S × ℚ :=
  let tr := trainRows rows fold f
  let te := testRows rows fold f
  let ft := fitTransform sc s (tr.map Prod.fst)
  match transformOp sc ft.1 (te.map Prod.fst) with
  | some zte => (ft.1, p.score (p.fit ft.2 (tr.map Prod.snd)) zte (te.map Prod.snd))
  | none => (ft.1, 0)

/-- Closed form of one fold's score: the predictor is fitted on the
training split standardised with parameters derived from that same
training split, and scored on the test split standardised with those
same training-derived parameters. -/
def foldScoreVal {χ χ' ϒ S M : Type} (sc : ScalerOps χ χ' S)
    (p : Predictor χ' ϒ M) (rows : List (χ × ϒ)) (fold : List ℕ) (f : ℕ) : ℚ :=
  p.score
    (p.fit (((trainRows rows fold f).map Prod.fst).map
        (sc.transform (sc.fit ((trainRows rows fold f).map Prod.fst))))
      ((trainRows rows fold f).map Prod.snd))
    (((testRows rows fold f).map Prod.fst).map
      (sc.transform (sc.fit ((trainRows rows fold f).map Prod.fst))))
    ((testRows rows fold f).map Prod.snd)

theorem foldScoreStep_eq {χ χ' ϒ S M : Type} (sc : ScalerOps χ χ' S)
    (p : Predictor χ' ϒ M) (rows : List (χ × ϒ)) (fold : List ℕ) (f : ℕ)
    (s : Option S) :
    foldScoreStep sc p rows fold f s =
      (some (sc.fit ((trainRows rows fold f).map Prod.fst)),
       foldScoreVal sc p rows fold f) := rfl

/-- The inner loop `perf = []; for i in range(n_folds): perf.append(...)`
of cell `f306f94d`, processing the given fold ids in order and threading
the shared scaler's state (`perf` accumulates the scores in the same
fold order as the Python appends). -/
def innerLoopGo {χ χ' ϒ S M : Type} (sc : ScalerOps χ χ' S)
    (p : Predictor χ' ϒ M) (rows : List (χ × ϒ)) (fold : List ℕ) :
    List ℕ → Option S → Option S × List ℚ
  | [], s => (s, [])
  | f :: fs, s =>
    let st := foldScoreStep sc p rows fold f s
    let rest := innerLoopGo sc p rows fold fs st.1
    (rest.1, st.2 :: rest.2)

/-- The inner fold loop over `range(n_folds)`. -/
def innerLoop {χ χ' ϒ S M : Type} (sc : ScalerOps χ χ' S)
    (p : Predictor χ' ϒ M) (rows : List (χ × ϒ)) (fold : List ℕ) (K : ℕ)
    (s0 : Option S) : Option S × List ℚ :=
  innerLoopGo sc p rows fold (List.range K) s0

theorem innerLoopGo_snd {χ χ' ϒ S M : Type} (sc : ScalerOps χ χ' S)
    (p : Predictor χ' ϒ M) (rows : List (χ × ϒ)) (fold : List ℕ) :
    ∀ (l : List ℕ) (s : Option S),
      (innerLoopGo sc p rows fold l s).2 =
        l.map (foldScoreVal sc p rows fold) := by
  intro l
  induction l with
  | nil => intro s; rfl
  | cons f fs ih =>
    intro s
    rw [innerLoopGo]
    simp only [foldScoreStep_eq, List.map_cons]
    rw [ih]

/-- The per-fold scores of the inner loop do not depend on the scaler
state inherited from earlier folds or earlier candidates: fold `f`
contributes exactly `foldScoreVal` for fold `f`. -/
theorem innerLoop_snd {χ χ' ϒ S M : Type} (sc : ScalerOps χ χ' S)
    (p : Predictor χ' ϒ M) (rows : List (χ × ϒ)) (fold : List ℕ) (K : ℕ)
    (s0 : Option S) :
    (innerLoop sc p rows fold K s0).2 =
      (List.range K).map (foldScoreVal sc p rows fold) := by
  rw [innerLoop, innerLoopGo_snd]

/-- The aggregate score of one candidate: the mean of its `K` per-fold
scores against the single shared fold assignment. -/
def candAggregate {χ χ' ϒ S M : Type} (sc : ScalerOps χ χ' S)
    (p : Predictor χ' ϒ M) (rows : List (χ × ϒ)) (fold : List ℕ) (K : ℕ) : ℚ :=
  npMean ((List.range K).map (foldScoreVal sc p rows fold))

/-- The outer candidate loop of cell `f306f94d`:
`neighbourhood_perf = []`, then for each candidate run the inner fold
loop (with the scaler state left by the previous candidate) and append
`np.mean(perf)`. The fold assignment `fold` is built once, before this
loop, and the same value is used for every candidate. -/
def outerLoop {χ χ' ϒ S M κ : Type} (sc : ScalerOps χ χ' S)
    (pr : κ → Predictor χ' ϒ M) (rows : List (χ × ϒ)) (fold : List ℕ) (K : ℕ) :
    List κ → Option S → Option S × List ℚ
  | [], s => (s, [])
  | c :: cs, s =>
    let r := innerLoop sc (pr c) rows fold K s
    let rest := outerLoop sc pr rows fold K cs r.1
    (rest.1, npMean r.2 :: rest.2)

/-- `neighbourhood_perf` as computed by the cell: the scaler starts
unfitted (`StandardScaler()` is constructed before the loop). -/
def hyperPerf {χ χ' ϒ S M κ : Type} (sc : ScalerOps χ χ' S)
    (pr : κ → Predictor χ' ϒ M) (rows : List (χ × ϒ)) (fold : List ℕ) (K : ℕ)
    (cands : List κ) : List ℚ :=
  (outerLoop sc pr rows fold K cands none).2

theorem outerLoop_snd {χ χ' ϒ S M κ : Type} (sc : ScalerOps χ χ' S)
    (pr : κ → Predictor χ' ϒ M) (rows : List (χ × ϒ)) (fold : List ℕ) (K : ℕ) :
    ∀ (cands : List κ) (s : Option S),
      (outerLoop sc pr rows fold K cands s).2 =
        cands.map (fun c => candAggregate sc (pr c) rows fold K) := by
  intro cands
  induction cands with
  | nil => intro s; rfl
  | cons c cs ih =>
    intro s
    rw [outerLoop]
    simp only [List.map_cons]
    rw [ih, innerLoop_snd, candAggregate]

/-- Every candidate's aggregate score is a function of that candidate's
predictor and the one shared fold assignment only. -/
theorem hyperPerf_eq {χ χ' ϒ S M κ : Type} (sc : ScalerOps χ χ' S)
    (pr : κ → Predictor χ' ϒ M) (rows : List (χ × ϒ)) (fold : List ℕ) (K : ℕ)
    (cands : List κ) :
    hyperPerf sc pr rows fold K cands =
      cands.map (fun c => candAggregate sc (pr c) rows fold K) := by
  rw [hyperPerf, outerLoop_snd]

/-! ### Selection: `np.argmax` and the best-candidate extraction -/

/-- Model of `np.argmax` on a list: the index of the first occurrence of
the maximum, together with that maximum; `none` for the empty list
(where `np.argmax` raises `ValueError`). -/
def firstArgmax : List ℚ → Option (ℕ × ℚ)
  | [] => none
  | x :: xs =>
    match firstArgmax xs with
    | none => some (0, x)
    | some (j, v) => if x < v then some (j + 1, v) else some (0, x)

/-- `best_neighbourhood = np.argmax(perf); best_k = cands[best_neighbourhood]`. -/
def selectBest {κ : Type} (cands : List κ) (perfs : List ℚ) : Option κ :=
  (firstArgmax perfs).bind (fun jv => cands[jv.1]?)

/-- The end of cell `f306f94d`: compute `neighbourhood_perf`, then
`best_neighbourhood = np.argmax(neighbourhood_perf)`,
`best_k = candidate_neighbourhoods[best_neighbourhood]`,
`best_perf = neighbourhood_perf[best_neighbourhood]`. `none` models the
`ValueError` `np.argmax` raises on an empty sequence (the second `none`
branch, an out-of-range candidate index, is unreachable since the perf
list and the candidate list have equal length). -/
def hyperRun {χ χ' ϒ S M κ : Type} (sc : ScalerOps χ χ' S)
    (pr : κ → Predictor χ' ϒ M) (rows : List (χ × ϒ)) (fold : List ℕ) (K : ℕ)
    (cands : List κ) : Option (κ × ℚ) :=
  match firstArgmax (hyperPerf sc pr rows fold K cands) with
  | none => none
  | some jv =>
    match cands[jv.1]? with
    | none => none
    | some c => some (c, jv.2)

/-- `firstArgmax` returns a position of the maximum such that every
entry is at most the returned value and every strictly earlier entry is
strictly below it (so exact ties go to the earliest position). -/
theorem firstArgmax_spec :
    ∀ (l : List ℚ), l ≠ [] →
      ∃ j v, firstArgmax l = some (j, v) ∧ j < l.length ∧ l[j]? = some v ∧
        (∀ (i : ℕ) (w : ℚ), l[i]? = some w → w ≤ v) ∧
        (∀ (i : ℕ) (w : ℚ), i < j → l[i]? = some w → w < v) := by
  intro l
  induction l with
  | nil => intro h; exact absurd rfl h
  | cons x xs ih =>
    intro _
    by_cases hxs : xs = []
    · subst hxs
      refine ⟨0, x, rfl, by simp, by simp, ?_, ?_⟩
      · intro i w hiw
        match i with
        | 0 =>
          rw [List.getElem?_cons_zero] at hiw
          exact le_of_eq (Option.some.inj hiw).symm
        | i + 1 => simp at hiw
      · intro i w hi
        exact absurd hi (Nat.not_lt_zero i)
    · obtain ⟨j, v, hfa, hjlen, hjv, hub, hstrict⟩ := ih hxs
      by_cases hx : x < v
      · refine ⟨j + 1, v, ?_, by simp; omega, ?_, ?_, ?_⟩
        · simp only [firstArgmax, hfa, if_pos hx]
        · rw [List.getElem?_cons_succ]; exact hjv
        · intro i w hiw
          match i with
          | 0 =>
            rw [List.getElem?_cons_zero] at hiw
            exact le_of_lt ((Option.some.inj hiw) ▸ hx)
          | i + 1 =>
            rw [List.getElem?_cons_succ] at hiw
            exact hub i w hiw
        · intro i w hi hiw
          match i with
          | 0 =>
            rw [List.getElem?_cons_zero] at hiw
            exact (Option.some.inj hiw) ▸ hx
          | i + 1 =>
            rw [List.getElem?_cons_succ] at hiw
            exact hstrict i w (by omega) hiw
      · refine ⟨0, x, ?_, by simp, by simp, ?_, ?_⟩
        · simp only [firstArgmax, hfa, if_neg hx]
        · intro i w hiw
          match i with
          | 0 =>
            rw [List.getElem?_cons_zero] at hiw
            exact le_of_eq (Option.some.inj hiw).symm
          | i + 1 =>
            rw [List.getElem?_cons_succ] at hiw
            exact le_trans (hub i w hiw) (le_of_not_lt hx)
        · intro i w hi
          exact absurd hi (Nat.not_lt_zero i)

/-- Counterexample to C4: the code has no selection-direction option —
it always takes `np.argmax`. With aggregate scores `[3, 1]` (as would
arise for a lower-is-better metric such as mean squared error) it
selects the candidate with score 3, the maximum, not the candidate with
the minimum score 1. -/
theorem select_lower_is_better_refuted :
    selectBest ([10, 20] : List ℕ) [3, 1] = some 10 ∧
    selectBest ([10, 20] : List ℕ) [3, 1] ≠ some 20 := by
  constructor <;> decide

/-- C4 (amended): the Hyperparameter Search always selects the candidate
with the maximum aggregate score (`np.argmax`); the direction is fixed to
higher-is-better, not configurable. When several candidates tie exactly
on the maximal aggregate score, the first in the candidate list's
original order is selected: every entry strictly before the selected
index is strictly below the selected score. -/
theorem select_argmax_first_max {κ : Type} (cands : List κ) (l : List ℚ)
    (hne : l ≠ []) (hlen : cands.length = l.length) :
    ∃ j v, firstArgmax l = some (j, v) ∧ j < l.length ∧
      selectBest cands l = cands[j]? ∧ (cands[j]?).isSome = true ∧
      l[j]? = some v ∧
      (∀ (i : ℕ) (w : ℚ), l[i]? = some w → w ≤ v) ∧
      (∀ (i : ℕ) (w : ℚ), i < j → l[i]? = some w → w < v) := by
  obtain ⟨j, v, hfa, hjlen, hjv, hub, hstrict⟩ := firstArgmax_spec l hne
  have hj : j < cands.length := by omega
  refine ⟨j, v, hfa, hjlen, ?_, ?_, hjv, hub, hstrict⟩
  · rw [selectBest, hfa]
    rfl
  · rw [List.getElem?_eq_getElem hj]
    rfl

/-- Witness for C4 (amended): scores `[2, 3, 3]` — the maximum 3 is
attained at indices 1 and 2, and index 1 (candidate 20) is selected. -/
theorem select_argmax_first_max_app :
    ∃ j v, firstArgmax [2, 3, 3] = some (j, v) ∧ j < ([2, 3, 3] : List ℚ).length ∧
      selectBest ([10, 20, 30] : List ℕ) [2, 3, 3] = ([10, 20, 30] : List ℕ)[j]? ∧
      (([10, 20, 30] : List ℕ)[j]?).isSome = true ∧
      ([2, 3, 3] : List ℚ)[j]? = some v ∧
      (∀ (i : ℕ) (w : ℚ), ([2, 3, 3] : List ℚ)[i]? = some w → w ≤ v) ∧
      (∀ (i : ℕ) (w : ℚ), i < j → ([2, 3, 3] : List ℚ)[i]? = some w → w < v) :=
  select_argmax_first_max [10, 20, 30] [2, 3, 3] (by decide) (by decide)

/-- C5: the fold assignment is built once, before the candidate loop, and
the same assignment `fold` is what every candidate's aggregate is
computed against: entry `j` of `neighbourhood_perf` is
`candAggregate` of candidate `j` against that one shared `fold` (the
scaler state threaded in from earlier candidates does not influence it).
Consequently two candidates whose factories produce mathematically
identical predictors receive identical aggregate scores. -/
theorem hyperSearch_shared_fold_fair {χ χ' ϒ S M κ : Type}
    (sc : ScalerOps χ χ' S) (pr : κ → Predictor χ' ϒ M) (rows : List (χ × ϒ))
    (fold : List ℕ) (K : ℕ) (cands : List κ) (j1 j2 : ℕ) (c1 c2 : κ)
    (h1 : cands[j1]? = some c1) (h2 : cands[j2]? = some c2)
    (hpr : pr c1 = pr c2) :
    (hyperPerf sc pr rows fold K cands)[j1]? =
      some (candAggregate sc (pr c1) rows fold K) ∧
    (hyperPerf sc pr rows fold K cands)[j2]? =
      some (candAggregate sc (pr c2) rows fold K) ∧
    candAggregate sc (pr c1) rows fold K =
      candAggregate sc (pr c2) rows fold K := by
  refine ⟨?_, ?_, by rw [hpr]⟩
  · rw [hyperPerf_eq, List.getElem?_map, h1]
    rfl
  · rw [hyperPerf_eq, List.getElem?_map, h2]
    rfl

/-- A concrete scaler: `fit` remembers the mean of the training features,
`transform` centres a feature by the remembered mean. -/
def wScaler : ScalerOps ℚ ℚ ℚ where
  fit := npMean
  transform := fun m x => x - m

/-- A concrete candidate-indexed factory: every candidate produces the
same predictor `wPred`. -/
def wPrF : ℕ → Predictor ℚ ℚ ℚ := fun _ => wPred

/-- Witness for C5: candidates 1 and 2 of `wPrF` produce identical
predictors and receive identical aggregate scores. -/
theorem hyperSearch_shared_fold_fair_app :
    (hyperPerf wScaler wPrF wRows [0, 1] 2 [1, 2])[0]? =
      some (candAggregate wScaler (wPrF 1) wRows [0, 1] 2) ∧
    (hyperPerf wScaler wPrF wRows [0, 1] 2 [1, 2])[1]? =
      some (candAggregate wScaler (wPrF 2) wRows [0, 1] 2) ∧
    candAggregate wScaler (wPrF 1) wRows [0, 1] 2 =
      candAggregate wScaler (wPrF 2) wRows [0, 1] 2 :=
  hyperSearch_shared_fold_fair wScaler wPrF wRows [0, 1] 2 [1, 2] 0 1 1 2
    (by decide) (by decide) rfl

/-- C9: the search fails exactly on the empty candidate list (the code's
failure is the `ValueError` that `np.argmax` raises on an empty sequence
— modelled as `none` — and the empty candidate list is the only input
that reaches it); on every non-empty candidate list it completes and
returns a selected candidate drawn from the list, with its aggregate
score. -/
theorem hyperRun_empty_iff {χ χ' ϒ S M κ : Type} (sc : ScalerOps χ χ' S)
    (pr : κ → Predictor χ' ϒ M) (rows : List (χ × ϒ)) (fold : List ℕ) (K : ℕ)
    (cands : List κ) :
    (cands = [] → hyperRun sc pr rows fold K cands = none) ∧
    (cands ≠ [] →
      ∃ c v, hyperRun sc pr rows fold K cands = some (c, v) ∧ c ∈ cands) := by
  constructor
  · intro h
    subst h
    rfl
  · intro h
    have hperf := hyperPerf_eq sc pr rows fold K cands
    have hne : hyperPerf sc pr rows fold K cands ≠ [] := by
      rw [hperf]
      simpa using h
    obtain ⟨j, v, hfa, hjlen, _, _, _⟩ := firstArgmax_spec _ hne
    have hj : j < cands.length := by
      rw [hperf, List.length_map] at hjlen
      exact hjlen
    refine ⟨cands[j], v, ?_, List.getElem_mem hj⟩
    unfold hyperRun
    rw [hfa]
    simp [List.getElem?_eq_getElem hj]

/-- Witness for C9 on the singleton candidate list `[5]`. -/
theorem hyperRun_empty_iff_app :
    ∃ c v, hyperRun wScaler wPrF wRows [0, 1] 2 [5] = some (c, v) ∧
      c ∈ ([5] : List ℕ) :=
  (hyperRun_empty_iff wScaler wPrF wRows [0, 1] 2 [5]).2 (by decide)

/-- C10: for every candidate's inner loop, whatever scaler state `s0` is
inherited (from other candidates or folds), the score recorded for fold
`f` standardises the training split with parameters `sc.fit` derived
from fold `f`'s training features only, and transforms the held-out test
features with exactly those training-derived parameters — the test rows
appear only as arguments of `sc.transform`, never of `sc.fit`, so they
cannot influence the scaling parameters. -/
theorem scaler_fit_train_only {χ χ' ϒ S M : Type} (sc : ScalerOps χ χ' S)
    (p : Predictor χ' ϒ M) (rows : List (χ × ϒ)) (fold : List ℕ) (K f : ℕ)
    (hf : f < K) (s0 : Option S) :
    ((innerLoop sc p rows fold K s0).2)[f]? = some
      (p.score
        (p.fit (((trainRows rows fold f).map Prod.fst).map
            (sc.transform (sc.fit ((trainRows rows fold f).map Prod.fst))))
          ((trainRows rows fold f).map Prod.snd))
        (((testRows rows fold f).map Prod.fst).map
          (sc.transform (sc.fit ((trainRows rows fold f).map Prod.fst))))
        ((testRows rows fold f).map Prod.snd)) := by
  rw [innerLoop_snd, List.getElem?_map, List.getElem?_range hf]
  rfl

/-- Witness for C10 at fold 0 of `wRows` with an arbitrary prior scaler
state (`some 99`). -/
theorem scaler_fit_train_only_app :
    ((innerLoop wScaler wPred wRows [0, 1] 2 (some 99)).2)[0]? = some
      (wPred.score
        (wPred.fit (((trainRows wRows [0, 1] 0).map Prod.fst).map
            (wScaler.transform (wScaler.fit ((trainRows wRows [0, 1] 0).map Prod.fst))))
          ((trainRows wRows [0, 1] 0).map Prod.snd))
        (((testRows wRows [0, 1] 0).map Prod.fst).map
          (wScaler.transform (wScaler.fit ((trainRows wRows [0, 1] 0).map Prod.fst))))
        ((testRows wRows [0, 1] 0).map Prod.snd)) :=
  scaler_fit_train_only wScaler wPred wRows [0, 1] 2 0 (by decide) (some 99)

end CV
